import Mathlib

/-!
Shallow embedding of scripts/process-images.mjs: an image-derivation
pipeline that reads a metadata collection (videos.json), classifies each
referenced source image by magic bytes, produces JPEG/WebP derivatives via
an external converter (ffmpeg, or sips plus cwebp), gated by an
mtime-based staleness check, and rewrites the metadata when entries
changed.

Modelling conventions:
- Filesystem paths are lists of components relative to the project root
  (so the script's videosPath is the list [src, _data, videos.json]).
- The string stored in an entry's image field is modelled structurally as
  ImageRef: a leading-slash flag plus the slash-separated components.
- The filesystem is an association list from paths to FileInfo (mtime as
  a Nat tick, the file's leading bytes, and a readable flag); writing a
  file conses a new binding, lookup takes the first match.
- Subprocess invocations (spawnSync) are modelled by a World oracle
  cmdFails that says which tool invocations exit non-zero and with what
  stderr text; a successful invocation writes its output file at the
  current clock tick and advances the clock.
- The metadata file's content is carried as a field of SysState; JSON
  serialization is deterministic, so byte-identity of the rewritten file
  corresponds to equality of the entry lists.
- Exceptions are modelled with Except; state is threaded explicitly so
  that the state at the moment an exception escapes remains observable.
-/

set_option autoImplicit false

namespace ProcessImages

/-- A filesystem path, as components relative to the project root. -/
abbrev FsPath := List String

/-- A logical image reference as stored in metadata: whether the string
starts with a slash, and its slash-separated components. -/
structure ImageRef where
  abs : Bool
  comps : List String
deriving DecidableEq, Repr

/-- Stat/content data for one file: modification tick, leading bytes
(enough to cover the 8-byte signature reads), and readability. -/
structure FileInfo where
  mtime : Nat
  sig : List Nat
  readable : Bool
deriving DecidableEq, Repr

/-- The filesystem: an association list from paths to file data; the
first binding for a path wins. -/
abbrev FS := List (FsPath × FileInfo)

/-- Association-list lookup, first match wins. -/
def fsLookup (fs : FS) (p : FsPath) : Option FileInfo :=
  match fs with
  | [] => none
  | (q, fi) :: rest => if q = p then some fi else fsLookup rest p

/-- Writing (or overwriting) a file: shadow any earlier binding. -/
def fsInsert (fs : FS) (p : FsPath) (fi : FileInfo) : FS :=
  (p, fi) :: fs

/-- fs.existsSync. -/
def fileExists (fs : FS) (p : FsPath) : Bool :=
  (fsLookup fs p).isSome

/-- The fixed 8-byte PNG signature checked by isPng. -/
def pngSignature : List Nat := [0x89, 0x50, 0x4e, 0x47, 0x0d, 0x0a, 0x1a, 0x0a]

/-- The 3-byte JPEG start-of-image marker checked by isJpeg. -/
def jpegMarker : List Nat := [0xff, 0xd8, 0xff]

/-- The read buffer: Buffer.alloc zero-fills, and readSync reads at most
the file's bytes, so a short file yields its bytes padded with zeros. -/
def padTo (len : Nat) (bs : List Nat) : List Nat :=
  bs.take len ++ List.replicate (len - bs.length) 0

/-- readSignature: open the file and read its first len bytes into a
zero-filled buffer.  openSync throws on a missing or unreadable file. -/
def readSignature (fs : FS) (p : FsPath) (len : Nat) : Except String (List Nat) :=
  match fsLookup fs p with
  | none => .error "ENOENT: no such file"
  | some fi =>
    if fi.readable then .ok (padTo len fi.sig) else .error "EACCES: permission denied"

/-- isPng: the 8 bytes read must equal the PNG signature exactly. -/
def isPng (fs : FS) (p : FsPath) : Except String Bool :=
  match readSignature fs p 8 with
  | .error e => .error e
  | .ok s => .ok (decide (s = pngSignature))

/-- isJpeg: the 3 bytes read must be ff d8 ff. -/
def isJpeg (fs : FS) (p : FsPath) : Except String Bool :=
  match readSignature fs p 3 with
  | .error e => .error e
  | .ok s => .ok (decide (s = jpegMarker))

/-- detectImageType: png if isPng, else jpeg if isJpeg, else other. -/
def detectImageType (fs : FS) (p : FsPath) : Except String String :=
  match isPng fs p with
  | .error e => .error e
  | .ok true => .ok "png"
  | .ok false =>
    match isJpeg fs p with
    | .error e => .error e
    | .ok true => .ok "jpeg"
    | .ok false => .ok "other"

/-- shouldGenerate: regenerate when the output is absent, or when the
source's mtime is strictly greater than the output's.  statSync throws
if the statted file is missing (only reachable for the source: the
output was just seen to exist). -/
def shouldGenerate (fs : FS) (sourcePath outputPath : FsPath) : Except String Bool :=
  if fileExists fs outputPath = false then .ok true
  else
    match fsLookup fs sourcePath with
    | none => .error "ENOENT: stat failed"
    | some s =>
      match fsLookup fs outputPath with
      | none => .error "ENOENT: stat failed"
      | some o => .ok (decide (o.mtime < s.mtime))

/-- One external tool invocation, with the arguments that matter: which
tool, the source, the quality preset, and the output path. -/
inductive Cmd where
  | ffmpeg (src : FsPath) (q : String) (out : FsPath)
  | sips (src : FsPath) (out : FsPath)
  | cwebp (src : FsPath) (out : FsPath)
deriving DecidableEq, Repr

/-- The executable name, used in the fatal error message. -/
def Cmd.tool : Cmd → String
  | .ffmpeg _ _ _ => "ffmpeg"
  | .sips _ _ => "sips"
  | .cwebp _ _ => "cwebp"

/-- The file the invocation writes. -/
def Cmd.outPath : Cmd → FsPath
  | .ffmpeg _ _ out => out
  | .sips _ out => out
  | .cwebp _ out => out

/-- Leading bytes of a freshly produced JPEG (JFIF header). -/
def jpegSigGen : List Nat := [0xff, 0xd8, 0xff, 0xe0]

/-- Leading bytes of a freshly produced WebP (RIFF header). -/
def webpSigGen : List Nat := [0x52, 0x49, 0x46, 0x46]

/-- Leading bytes of the file a successful invocation writes: sips emits
JPEG, cwebp emits WebP.  ffmpeg picks the container from the output
path's extension, which in this script is .webp exactly for the
invocations issued with quality preset 70 and .jpg exactly for those
issued with preset 3, so the preset identifies the container. -/
def Cmd.outSig : Cmd → List Nat
  | .sips _ _ => jpegSigGen
  | .cwebp _ _ => webpSigGen
  | .ffmpeg _ q _ => if q = "70" then webpSigGen else jpegSigGen

/-- The host environment: which tools the PATH probe finds, and which
invocations exit non-zero (with the diagnostic text runCommand reports). -/
structure World where
  hasFfmpeg : Bool
  hasSips : Bool
  hasCwebp : Bool
  cmdFails : Cmd → Option String

/-- Mutable state threaded through one run's entry loop: the filesystem,
the clock assigning mtimes to new writes, and the trace of tool
invocations actually executed, in order. -/
structure RunSt where
  files : FS
  clock : Nat
  trace : List Cmd
deriving Repr

/-- runCommand: spawn the tool and block; non-zero status throws with the
tool's diagnostic text, success writes the output file at the current
tick and advances the clock. -/
def runCommand (w : World) (c : Cmd) (st : RunSt) : RunSt × Except String Unit :=
  match w.cmdFails c with
  | some errText => (st, .error (c.tool ++ " failed: " ++ errText))
  | none =>
    (⟨fsInsert st.files c.outPath ⟨st.clock, c.outSig, true⟩,
      st.clock + 1, st.trace ++ [c]⟩, .ok ())

/-- convertWithFfmpeg: for a PNG source, produce the WebP derivative
first, then the JPEG derivative, each gated by shouldGenerate. -/
def convertWithFfmpeg (w : World) (sourcePath jpgPath webpPath : FsPath) (st : RunSt) :
    RunSt × Except String Unit :=
  match shouldGenerate st.files sourcePath webpPath with
  | .error e => (st, .error e)
  | .ok sgWebp =>
    match (if sgWebp then runCommand w (.ffmpeg sourcePath "70" webpPath) st else (st, .ok ())) with
    | (st1, .error e) => (st1, .error e)
    | (st1, .ok _) =>
      match shouldGenerate st1.files sourcePath jpgPath with
      | .error e => (st1, .error e)
      | .ok sgJpg =>
        if sgJpg then runCommand w (.ffmpeg sourcePath "3" jpgPath) st1 else (st1, .ok ())

/-- convertWithSipsAndCwebp: for a PNG source, produce the JPEG
derivative first (sips), then the WebP derivative (cwebp). -/
def convertWithSipsAndCwebp (w : World) (sourcePath jpgPath webpPath : FsPath) (st : RunSt) :
    RunSt × Except String Unit :=
  match shouldGenerate st.files sourcePath jpgPath with
  | .error e => (st, .error e)
  | .ok sgJpg =>
    match (if sgJpg then runCommand w (.sips sourcePath jpgPath) st else (st, .ok ())) with
    | (st1, .error e) => (st1, .error e)
    | (st1, .ok _) =>
      match shouldGenerate st1.files sourcePath webpPath with
      | .error e => (st1, .error e)
      | .ok sgWebp =>
        if sgWebp then runCommand w (.cwebp sourcePath webpPath) st1 else (st1, .ok ())

/-- convertJpegToWebp: produce only the WebP derivative, with the tool
picked by the selected backend. -/
def convertJpegToWebp (w : World) (converter : String) (sourcePath webpPath : FsPath)
    (st : RunSt) : RunSt × Except String Unit :=
  match shouldGenerate st.files sourcePath webpPath with
  | .error e => (st, .error e)
  | .ok sg =>
    if sg = false then (st, .ok ())
    else if converter = "ffmpeg" then runCommand w (.ffmpeg sourcePath "70" webpPath) st
    else runCommand w (.cwebp sourcePath webpPath) st

/-- pickConverter: prefer ffmpeg, fall back to sips plus cwebp, else
fail fatally. -/
def pickConverter (w : World) : Except String String :=
  if w.hasFfmpeg then .ok "ffmpeg"
  else if w.hasSips && w.hasCwebp then .ok "sips-cwebp"
  else .error "No supported image converter found. Install ffmpeg, or install both sips and cwebp."

/-- toPublicPath: path.relative from projectRoot/src, joined with
forward slashes and prefixed with a slash.  A path under src drops the
src component; a path elsewhere gains a parent-directory step. -/
def toPublicPath (localPath : FsPath) : ImageRef :=
  match localPath with
  | "src" :: rest => ⟨true, rest⟩
  | _ => ⟨true, ".." :: localPath⟩

/-- resolveInputPath: a slash-rooted reference maps under src, a
reference starting with the assets/ prefix maps under src, and a bare
reference maps under src/assets/images. -/
def resolveInputPath (r : ImageRef) : FsPath :=
  if r.abs then "src" :: r.comps
  else
    match r.comps with
    | "assets" :: c :: rest => "src" :: "assets" :: c :: rest
    | _ => "src" :: "assets" :: "images" :: r.comps

/-- Index of the last dot in a filename, as path.parse finds the
extension boundary. -/
def lastDotIdx : List Char → Option Nat
  | [] => none
  | c :: cs =>
    match lastDotIdx cs with
    | some i => some (i + 1)
    | none => if c = '.' then some 0 else none

/-- path.parse(...).name: the filename with its last extension removed;
a lone leading dot is part of the name, not an extension marker. -/
def parseName (file : String) : String :=
  match lastDotIdx file.toList with
  | none => file
  | some i => if i = 0 then file else ⟨file.toList.take i⟩

/-- path.join(parsed.dir, parsed.name ++ ext): the sibling derivative
path with a swapped extension. -/
def derivPath (p : FsPath) (ext : String) : FsPath :=
  p.dropLast ++ [parseName (p.getLast?.getD "") ++ ext]

/-- One metadata entry: the two pipeline-managed fields plus the opaque
fields it passes through. -/
structure Entry where
  image : Option ImageRef
  imageWebp : Option ImageRef
  rest : List (String × String)
deriving DecidableEq, Repr

/-- The falsiness test the entry loop applies to video.image: absent, or
the empty string. -/
def refFalsy : Option ImageRef → Bool
  | none => true
  | some r => !r.abs && r.comps.isEmpty

/-- The entry update at the bottom of the loop body: if either computed
field differs from the stored one, set both and report a change. -/
def updateEntry (e : Entry) (ni nw : ImageRef) : Entry × Bool :=
  if e.image ≠ some ni ∨ e.imageWebp ≠ some nw then
    ({ e with image := some ni, imageWebp := some nw }, true)
  else (e, false)

/-- One iteration of the entry loop.  Returns the state plus either the
escaped exception, or the (possibly updated) entry, whether it changed,
and whether it counted as processed. -/
def processEntry (w : World) (conv : String) (st : RunSt) (e : Entry) :
    RunSt × Except String (Entry × Bool × Bool) :=
  if refFalsy e.image then (st, .ok (e, false, false))
  else
    match e.image with
    | none => (st, .ok (e, false, false))
    | some r =>
      let inputPath := resolveInputPath r
      if fileExists st.files inputPath = false then (st, .ok (e, false, false))
      else
        match detectImageType st.files inputPath with
        | .error err => (st, .error err)
        | .ok imageType =>
          if imageType = "other" then (st, .ok (e, false, false))
          else
            let webpPath := derivPath inputPath ".webp"
            let nextWebp := toPublicPath webpPath
            if imageType = "png" then
              let jpgPath := derivPath inputPath ".jpg"
              match (if conv = "ffmpeg" then convertWithFfmpeg w inputPath jpgPath webpPath st
                     else convertWithSipsAndCwebp w inputPath jpgPath webpPath st) with
              | (st1, .error err) => (st1, .error err)
              | (st1, .ok _) =>
                let (e1, ch) := updateEntry e (toPublicPath jpgPath) nextWebp
                (st1, .ok (e1, ch, true))
            else
              match convertJpegToWebp w conv inputPath webpPath st with
              | (st1, .error err) => (st1, .error err)
              | (st1, .ok _) =>
                let (e1, ch) := updateEntry e (toPublicPath inputPath) nextWebp
                (st1, .ok (e1, ch, true))

/-- The entry loop: process entries in order, accumulating the updated
list, the dirty flag, and the processed counter; the first escaped
exception aborts the loop. -/
def runEntries (w : World) (conv : String) (st : RunSt) :
    List Entry → RunSt × Except String (List Entry × Bool × Nat)
  | [] => (st, .ok ([], false, 0))
  | e :: es =>
    match processEntry w conv st e with
    | (st1, .error err) => (st1, .error err)
    | (st1, .ok (e1, ch, cnt)) =>
      match runEntries w conv st1 es with
      | (st2, .error err) => (st2, .error err)
      | (st2, .ok (es2, dirty, n)) =>
        (st2, .ok (e1 :: es2, ch || dirty, (if cnt then 1 else 0) + n))

/-- The world outside the entry loop: the metadata file's parsed content
(none when the file is missing or corrupt), the filesystem, the clock. -/
structure SysState where
  meta : Option (List Entry)
  files : FS
  clock : Nat

/-- What one invocation of main leaves behind: the system state, the
tool-invocation trace, how many times the metadata file was written,
and the summary (processed count and backend) or the fatal error. -/
structure Outcome where
  sys : SysState
  trace : List Cmd
  writes : Nat
  result : Except String (Nat × String)

/-- main: pick the converter, then load videos.json, run the entry loop,
and rewrite the metadata file once at the end only when some entry
changed. -/
def mainRun (w : World) (sys : SysState) : Outcome :=
  match pickConverter w with
  | .error e => ⟨sys, [], 0, .error e⟩
  | .ok conv =>
    match sys.meta with
    | none => ⟨sys, [], 0, .error "Failed to load videos.json"⟩
    | some videos =>
      match runEntries w conv ⟨sys.files, sys.clock, []⟩ videos with
      | (st, .error e) => ⟨⟨sys.meta, st.files, st.clock⟩, st.trace, 0, .error e⟩
      | (st, .ok (videos2, dirty, n)) =>
        if dirty then
          ⟨⟨some videos2, st.files, st.clock⟩, st.trace, 1, .ok (n, conv)⟩
        else
          ⟨⟨sys.meta, st.files, st.clock⟩, st.trace, 0, .ok (n, conv)⟩

/-! ### Helper lemmas -/

/-- If a pattern of length n is a prefix of the file's bytes, the n-byte
read buffer holds exactly that pattern. -/
theorem padTo_eq_of_prefix {n : Nat} {pat l : List Nat} (h : pat <+: l)
    (hn : pat.length = n) : padTo n l = pat := by
  obtain ⟨t, rfl⟩ := h
  subst hn
  have h1 : (pat ++ t).take pat.length = pat := List.take_left pat t
  have h2 : pat.length - (pat ++ t).length = 0 := by
    simp [List.length_append]
  simp [padTo, h1, h2]

/-- Conversely, if the n-byte read buffer holds a pattern that does not
end in a zero byte, the pattern is a genuine prefix of the file. -/
theorem prefix_of_padTo_eq {n : Nat} {pat l : List Nat} (_hn : pat.length = n)
    (hlast : pat.getLast?.getD 0 ≠ 0) (h : padTo n l = pat) : pat <+: l := by
  by_cases hl : n ≤ l.length
  · have htake : l.take n = pat := by
      have h2 : n - l.length = 0 := Nat.sub_eq_zero_of_le hl
      simpa [padTo, h2] using h
    exact htake ▸ List.take_prefix n l
  · exfalso
    push_neg at hl
    have htake : l.take n = l := List.take_of_length_le (Nat.le_of_lt hl)
    have hk : n - l.length = (n - l.length - 1) + 1 := by omega
    have hrep : List.replicate (n - l.length) (0 : Nat) =
        List.replicate (n - l.length - 1) 0 ++ [0] := by
      rw [hk, List.replicate_succ' (n - l.length - 1) 0]
      simp
    have hlast0 : pat.getLast? = some 0 := by
      rw [← h]
      simp [padTo, htake, hrep, ← List.append_assoc, List.getLast?_concat]
    rw [hlast0] at hlast
    simp at hlast

/-- Both magic-byte checks, expressed through the read buffer: what
detectImageType returns for a readable file with leading bytes sig. -/
theorem detectImageType_eq {fs : FS} {p : FsPath} {fi : FileInfo}
    (hl : fsLookup fs p = some fi) (hr : fi.readable = true) :
    detectImageType fs p =
      .ok (if padTo 8 fi.sig = pngSignature then "png"
           else if padTo 3 fi.sig = jpegMarker then "jpeg" else "other") := by
  by_cases h8 : padTo 8 fi.sig = pngSignature
  · simp [detectImageType, isPng, isJpeg, readSignature, hl, hr, h8]
  · by_cases h3 : padTo 3 fi.sig = jpegMarker
    · simp [detectImageType, isPng, isJpeg, readSignature, hl, hr, h8, h3]
    · simp [detectImageType, isPng, isJpeg, readSignature, hl, hr, h8, h3]

/-- The entry update touches only the two managed fields, changes the
entry exactly when it reports a change, and reports a change exactly
when a managed field's stored value differed. -/
theorem updateEntry_shape (e : Entry) (ni nw : ImageRef) :
    (updateEntry e ni nw).1.rest = e.rest
    ∧ ((updateEntry e ni nw).2 = false → (updateEntry e ni nw).1 = e)
    ∧ ((updateEntry e ni nw).2 = true → (updateEntry e ni nw).1 ≠ e)
    ∧ ((updateEntry e ni nw).1 = e
       ∨ (updateEntry e ni nw).1 = { e with image := some ni, imageWebp := some nw }) := by
  unfold updateEntry
  by_cases h : e.image ≠ some ni ∨ e.imageWebp ≠ some nw
  · rw [if_pos h]
    refine ⟨rfl, by simp, fun _ heq => ?_, Or.inr rfl⟩
    rcases h with h | h
    · exact h (by rw [← heq])
    · exact h (by rw [← heq])
  · rw [if_neg h]
    exact ⟨rfl, fun _ => rfl, by simp, Or.inl rfl⟩

/-- One loop iteration that completes without an exception returns an
entry with the opaque fields intact, differing from the input exactly
when the change flag is set, and differing only in the two managed
fields. -/
theorem processEntry_ok_shape (w : World) (conv : String) (st st1 : RunSt) (e e1 : Entry)
    (ch cnt : Bool) (h : processEntry w conv st e = (st1, .ok (e1, ch, cnt))) :
    e1.rest = e.rest
    ∧ (ch = false → e1 = e)
    ∧ (ch = true → e1 ≠ e)
    ∧ (e1 = e ∨ ∃ ni nw, e1 = { e with image := some ni, imageWebp := some nw }) := by
  have skip : e1 = e → ch = false →
      e1.rest = e.rest ∧ (ch = false → e1 = e) ∧ (ch = true → e1 ≠ e)
      ∧ (e1 = e ∨ ∃ ni nw, e1 = { e with image := some ni, imageWebp := some nw }) := by
    intro he hch
    subst he hch
    exact ⟨rfl, fun _ => rfl, by simp, Or.inl rfl⟩
  have upd : ∀ ni nw, e1 = (updateEntry e ni nw).1 → ch = (updateEntry e ni nw).2 →
      e1.rest = e.rest ∧ (ch = false → e1 = e) ∧ (ch = true → e1 ≠ e)
      ∧ (e1 = e ∨ ∃ ni nw, e1 = { e with image := some ni, imageWebp := some nw }) := by
    intro ni nw he hch
    subst he hch
    have hu := updateEntry_shape e ni nw
    exact ⟨hu.1, hu.2.1, hu.2.2.1, hu.2.2.2.elim Or.inl (fun hx => Or.inr ⟨_, _, hx⟩)⟩
  by_cases h1 : refFalsy e.image = true
  · rw [processEntry, if_pos h1] at h
    simp only [Prod.mk.injEq, Except.ok.injEq] at h
    exact skip h.2.1.symm h.2.2.1.symm
  · rw [processEntry, if_neg h1] at h
    cases him : e.image with
    | none =>
      rw [him] at h
      simp only [Prod.mk.injEq, Except.ok.injEq] at h
      exact skip h.2.1.symm h.2.2.1.symm
    | some r =>
      rw [him] at h
      simp only [] at h
      by_cases hex : fileExists st.files (resolveInputPath r) = false
      · rw [if_pos hex] at h
        simp only [Prod.mk.injEq, Except.ok.injEq] at h
        exact skip h.2.1.symm h.2.2.1.symm
      · rw [if_neg hex] at h
        cases hdet : detectImageType st.files (resolveInputPath r) with
        | error err =>
          rw [hdet] at h
          simp only [Prod.mk.injEq] at h
          exact absurd h.2 (by simp)
        | ok ty =>
          rw [hdet] at h
          simp only [] at h
          by_cases hso : ty = "other"
          · rw [if_pos hso] at h
            simp only [Prod.mk.injEq, Except.ok.injEq] at h
            exact skip h.2.1.symm h.2.2.1.symm
          · rw [if_neg hso] at h
            by_cases hsp : ty = "png"
            · rw [if_pos hsp] at h
              rcases hcc : (if conv = "ffmpeg" then
                  convertWithFfmpeg w (resolveInputPath r)
                    (derivPath (resolveInputPath r) ".jpg")
                    (derivPath (resolveInputPath r) ".webp") st
                else
                  convertWithSipsAndCwebp w (resolveInputPath r)
                    (derivPath (resolveInputPath r) ".jpg")
                    (derivPath (resolveInputPath r) ".webp") st) with ⟨stc, resc⟩
              rw [hcc] at h
              cases resc with
              | error err =>
                simp only [Prod.mk.injEq] at h
                exact absurd h.2 (by simp)
              | ok u =>
                simp only [Prod.mk.injEq, Except.ok.injEq] at h
                exact upd _ _ h.2.1.symm h.2.2.1.symm
            · rw [if_neg hsp] at h
              rcases hcc : convertJpegToWebp w conv (resolveInputPath r)
                  (derivPath (resolveInputPath r) ".webp") st with ⟨stc, resc⟩
              rw [hcc] at h
              cases resc with
              | error err =>
                simp only [Prod.mk.injEq] at h
                exact absurd h.2 (by simp)
              | ok u =>
                simp only [Prod.mk.injEq, Except.ok.injEq] at h
                exact upd _ _ h.2.1.symm h.2.2.1.symm

/-- The loop over a list of entries preserves length and opaque fields,
confines updates to the two managed fields, and sets the dirty flag
exactly when some entry changed. -/
theorem runEntries_ok_shape (w : World) (conv : String) (es : List Entry) :
    ∀ st st2 es2 dirty n, runEntries w conv st es = (st2, .ok (es2, dirty, n)) →
    es2.length = es.length
    ∧ (dirty = false → es2 = es)
    ∧ (dirty = true → es2 ≠ es)
    ∧ ∀ i (h1 : i < es.length) (h2 : i < es2.length),
        (es2.get ⟨i, h2⟩).rest = (es.get ⟨i, h1⟩).rest
        ∧ (es2.get ⟨i, h2⟩ = es.get ⟨i, h1⟩
           ∨ ∃ ni nw, es2.get ⟨i, h2⟩ =
               { es.get ⟨i, h1⟩ with image := some ni, imageWebp := some nw }) := by
  induction es with
  | nil =>
    intro st st2 es2 dirty n h
    simp only [runEntries, Prod.mk.injEq, Except.ok.injEq] at h
    obtain ⟨-, hes, hd, -⟩ := h
    subst hes hd
    exact ⟨rfl, fun _ => rfl, by simp, fun i h1 h2 => absurd h1 (by simp)⟩
  | cons e es ih =>
    intro st st2 es2 dirty n h
    simp only [runEntries] at h
    split at h
    · exact absurd h (by simp)
    · rename_i st1 e1 ch cnt hpe
      split at h
      · exact absurd h (by simp)
      · rename_i stx esx dx nx hre
        simp only [Prod.mk.injEq, Except.ok.injEq] at h
        obtain ⟨hst, hes, hd, -⟩ := h
        subst hes hd
        have hpes := processEntry_ok_shape w conv st st1 e e1 ch cnt hpe
        have hres := ih st1 stx esx dx nx hre
        refine ⟨by simp [hres.1], ?_, ?_, ?_⟩
        · intro hdf
          rcases Bool.or_eq_false_iff.mp hdf with ⟨hc, hdx⟩
          rw [hpes.2.1 hc, hres.2.1 hdx]
        · intro hdt heq
          rcases List.cons.injEq .. ▸ heq with ⟨h1, h2⟩
          rcases Bool.or_eq_true_iff.mp hdt with hc | hdx
          · exact hpes.2.2.1 hc h1
          · exact hres.2.2.1 hdx h2
        · intro i h1 h2
          cases i with
          | zero =>
            simp only [List.get]
            exact ⟨hpes.1, hpes.2.2.2⟩
          | succ j =>
            simp only [List.get]
            exact hres.2.2.2 j (by simpa using h1) (by simpa using h2)

/-- Looking up the path just written returns the written data. -/
theorem fsLookup_insert_self (fs : FS) (p : FsPath) (fi : FileInfo) :
    fsLookup (fsInsert fs p fi) p = some fi := by
  simp [fsLookup, fsInsert]

/-- Looking up any other path is unaffected by a write. -/
theorem fsLookup_insert_ne (fs : FS) (p q : FsPath) (fi : FileInfo) (h : p ≠ q) :
    fsLookup (fsInsert fs p fi) q = fsLookup fs q := by
  simp [fsLookup, fsInsert, h]

/-- A list with no dot has no last-dot index. -/
theorem lastDotIdx_of_not_mem {l : List Char} (h : '.' ∉ l) : lastDotIdx l = none := by
  induction l with
  | nil => rfl
  | cons c cs ih =>
    simp only [List.mem_cons, not_or] at h
    rw [lastDotIdx, ih h.2]
    exact if_neg (fun hc => h.1 hc.symm)

/-- The last dot of a ++ '.' :: tl, with tl dot-free, sits right after a. -/
theorem lastDotIdx_append {tl : List Char} (a : List Char) (h : '.' ∉ tl) :
    lastDotIdx (a ++ '.' :: tl) = some a.length := by
  induction a with
  | nil => simp [lastDotIdx, lastDotIdx_of_not_mem h]
  | cons c cs ih => simp [lastDotIdx, ih]

/-- Appending an extension (a dot followed by dot-free characters) to a
nonempty name and re-parsing recovers the name. -/
theorem parseName_append_ext (x e : String) (hx : x ≠ "") (hd : e.data.head? = some '.')
    (ht : '.' ∉ e.data.tail) : parseName (x ++ e) = x := by
  have hdx : x.data ≠ [] := fun hc => hx (String.ext hc)
  obtain ⟨c, tl, hct⟩ : ∃ c tl, e.data = c :: tl := by
    cases he : e.data with
    | nil => rw [he] at hd; exact absurd hd (by simp)
    | cons c tl => exact ⟨c, tl, rfl⟩
  have hc : c = '.' := by
    rw [hct] at hd
    simpa using hd
  subst hc
  rw [hct] at ht
  have hdata : (x ++ e).toList = x.data ++ '.' :: tl := by
    show (x ++ e).data = x.data ++ '.' :: tl
    rw [String.data_append, hct]
  rw [parseName, hdata, lastDotIdx_append x.data (by simpa using ht)]
  simp only []
  rw [if_neg (fun h0 => hdx (List.length_eq_zero.mp h0)), List.take_left]

/-- parseName never turns a nonempty filename into the empty string. -/
theorem parseName_ne_empty {f : String} (h : f ≠ "") : parseName f ≠ "" := by
  rw [parseName]
  cases hl : lastDotIdx f.toList with
  | none => exact h
  | some i =>
    simp only []
    by_cases hi : i = 0
    · rw [if_pos hi]; exact h
    · rw [if_neg hi]
      intro hcon
      have hdat : f.toList.take i = [] := congrArg String.data hcon
      rcases List.take_eq_nil_iff.mp hdat with h0 | h0
      · exact hi h0
      · exact h (String.ext h0)

/-- The derivative of a path decomposed as directory plus filename. -/
theorem derivPath_concat (l : List String) (f : String) (ext : String) :
    derivPath (l ++ [f]) ext = l ++ [parseName f ++ ext] := by
  rw [derivPath, List.dropLast_concat, List.getLast?_concat]
  rfl

/-- Appending a nonempty string on the left keeps a string nonempty. -/
theorem append_ne_empty_of_left {x : String} (e : String) (hx : x ≠ "") : x ++ e ≠ "" := by
  intro hcon
  have hd : (x ++ e).data = [] := congrArg String.data hcon
  rw [String.data_append] at hd
  exact hx (String.ext (List.append_eq_nil.mp hd).1)

/-- The converter can only ever be one of the two backend names. -/
theorem pickConverter_cases {w : World} {conv : String} (h : pickConverter w = .ok conv) :
    conv = "ffmpeg" ∨ conv = "sips-cwebp" := by
  rw [pickConverter] at h
  split at h
  · exact Or.inl (by injection h with h1; exact h1.symm)
  · split at h
    · exact Or.inr (by injection h with h1; exact h1.symm)
    · exact absurd h (by simp)

/-- The entry returned by updateEntry always equals the input with both
managed fields set to the computed values (when nothing changed, setting
them is the identity). -/
theorem updateEntry_fst (e : Entry) (ni nw : ImageRef) :
    (updateEntry e ni nw).1 = { e with image := some ni, imageWebp := some nw } := by
  unfold updateEntry
  split
  · rfl
  · rename_i hcon
    have h1 : e.image = some ni := not_not.mp (not_or.mp hcon).1
    have h2 : e.imageWebp = some nw := not_not.mp (not_or.mp hcon).2
    rw [← h1, ← h2]

/-- When both stored fields already hold the computed values, the
update is a no-op and reports no change. -/
theorem updateEntry_self (e : Entry) (ni nw : ImageRef) (h1 : e.image = some ni)
    (h2 : e.imageWebp = some nw) : updateEntry e ni nw = (e, false) := by
  rw [updateEntry, if_neg]
  intro hor
  rcases hor with h | h
  · exact h h1
  · exact h h2

/-- When the stored image field differs from the computed one, the
update rewrites both fields and reports a change. -/
theorem updateEntry_changed (e : Entry) (ni nw : ImageRef) (h : e.image ≠ some ni) :
    updateEntry e ni nw =
      ({ e with image := some ni, imageWebp := some nw }, true) := by
  rw [updateEntry, if_pos (Or.inl h)]

/-- A file whose 3-byte read buffer is the JPEG marker cannot have an
8-byte read buffer equal to the PNG signature. -/
theorem jpeg_not_png {sig : List Nat} (h : padTo 3 sig = jpegMarker) :
    padTo 8 sig ≠ pngSignature := by
  intro hcon
  have hj : jpegMarker <+: sig := prefix_of_padTo_eq (by decide) (by decide) h
  have hp : pngSignature <+: sig := prefix_of_padTo_eq (by decide) (by decide) hcon
  obtain ⟨t1, ht1⟩ := hj
  obtain ⟨t2, ht2⟩ := hp
  rw [← ht2] at ht1
  simp [jpegMarker, pngSignature] at ht1

/-- A WebP-only conversion with the target absent runs exactly one tool
(chosen by the backend) and writes the target at the current tick. -/
theorem convertJpegToWebp_fresh (w : World) (conv : String) (src wp : FsPath) (st : RunSt)
    (hcf : ∀ c, w.cmdFails c = none) (hwp : fsLookup st.files wp = none) :
    convertJpegToWebp w conv src wp st =
      (⟨fsInsert st.files wp ⟨st.clock, webpSigGen, true⟩, st.clock + 1,
        st.trace ++ [if conv = "ffmpeg" then Cmd.ffmpeg src "70" wp else Cmd.cwebp src wp]⟩,
       .ok ()) := by
  rw [convertJpegToWebp]
  have hsg : shouldGenerate st.files src wp = .ok true := by
    simp [shouldGenerate, fileExists, hwp]
  rw [hsg]
  simp only [Bool.true_eq_false, if_false]
  by_cases hcv : conv = "ffmpeg"
  · rw [if_pos hcv, runCommand, hcf]
    simp [hcv, Cmd.outPath, Cmd.outSig]
  · rw [if_neg hcv, runCommand, hcf]
    simp [hcv, Cmd.outPath, Cmd.outSig]

/-- A WebP-only conversion whose target exists and is at least as new as
the source does nothing. -/
theorem convertJpegToWebp_current (w : World) (conv : String) (src wp : FsPath) (st : RunSt)
    (s o : FileInfo) (hs : fsLookup st.files src = some s) (ho : fsLookup st.files wp = some o)
    (hmt : ¬ o.mtime < s.mtime) :
    convertJpegToWebp w conv src wp st = (st, .ok ()) := by
  rw [convertJpegToWebp]
  have hsg : shouldGenerate st.files src wp = .ok false := by
    rw [shouldGenerate, if_neg (by simp [fileExists, ho]), hs, ho]
    simp [hmt]
  rw [hsg]
  rfl

/-- The ffmpeg PNG conversion with both targets absent: WebP written at
the current tick, JPEG one tick later, in that command order. -/
theorem convertWithFfmpeg_fresh (w : World) (src jp wp : FsPath) (st : RunSt)
    (hcf : ∀ c, w.cmdFails c = none) (hjp : fsLookup st.files jp = none)
    (hwp : fsLookup st.files wp = none) (hne : jp ≠ wp) :
    convertWithFfmpeg w src jp wp st =
      (⟨fsInsert (fsInsert st.files wp ⟨st.clock, webpSigGen, true⟩) jp
          ⟨st.clock + 1, jpegSigGen, true⟩,
        st.clock + 2,
        st.trace ++ [Cmd.ffmpeg src "70" wp, Cmd.ffmpeg src "3" jp]⟩, .ok ()) := by
  rw [convertWithFfmpeg]
  have hsgW : shouldGenerate st.files src wp = .ok true := by
    simp [shouldGenerate, fileExists, hwp]
  rw [hsgW]
  simp only [if_true]
  rw [runCommand, hcf]
  simp only [Cmd.outPath, Cmd.outSig, String.reduceEq, if_true]
  have hsgJ : shouldGenerate
      (fsInsert st.files wp ⟨st.clock, webpSigGen, true⟩) src jp = .ok true := by
    simp [shouldGenerate, fileExists, fsLookup_insert_ne _ _ _ _ (Ne.symm hne), hjp]
  rw [hsgJ]
  simp only [if_true]
  rw [runCommand, hcf]
  simp [Cmd.outPath, Cmd.outSig, List.append_assoc]

/-- The sips-cwebp PNG conversion with both targets absent: JPEG written
at the current tick, WebP one tick later, in that command order. -/
theorem convertWithSipsAndCwebp_fresh (w : World) (src jp wp : FsPath) (st : RunSt)
    (hcf : ∀ c, w.cmdFails c = none) (hjp : fsLookup st.files jp = none)
    (hwp : fsLookup st.files wp = none) (hne : jp ≠ wp) :
    convertWithSipsAndCwebp w src jp wp st =
      (⟨fsInsert (fsInsert st.files jp ⟨st.clock, jpegSigGen, true⟩) wp
          ⟨st.clock + 1, webpSigGen, true⟩,
        st.clock + 2,
        st.trace ++ [Cmd.sips src jp, Cmd.cwebp src wp]⟩, .ok ()) := by
  rw [convertWithSipsAndCwebp]
  have hsgJ : shouldGenerate st.files src jp = .ok true := by
    simp [shouldGenerate, fileExists, hjp]
  rw [hsgJ]
  simp only [if_true]
  rw [runCommand, hcf]
  simp only [Cmd.outPath, Cmd.outSig]
  have hsgW : shouldGenerate
      (fsInsert st.files jp ⟨st.clock, jpegSigGen, true⟩) src wp = .ok true := by
    simp [shouldGenerate, fileExists, fsLookup_insert_ne _ _ _ _ hne, hwp]
  rw [hsgW]
  simp only [if_true]
  rw [runCommand, hcf]
  simp [Cmd.outPath, Cmd.outSig, List.append_assoc]

/-- One loop iteration on a JPEG-classified entry, given the result of
its WebP conversion. -/
theorem processEntry_jpeg_ok (w : World) (conv : String) (st st1 : RunSt) (e : Entry)
    (r : ImageRef) (fi : FileInfo)
    (him : e.image = some r) (hnf : refFalsy e.image = false)
    (hl : fsLookup st.files (resolveInputPath r) = some fi) (hread : fi.readable = true)
    (hjpeg : padTo 3 fi.sig = jpegMarker)
    (hcvt : convertJpegToWebp w conv (resolveInputPath r)
        (derivPath (resolveInputPath r) ".webp") st = (st1, .ok ())) :
    processEntry w conv st e = (st1, .ok
      ((updateEntry e (toPublicPath (resolveInputPath r))
          (toPublicPath (derivPath (resolveInputPath r) ".webp"))).1,
       (updateEntry e (toPublicPath (resolveInputPath r))
          (toPublicPath (derivPath (resolveInputPath r) ".webp"))).2, true)) := by
  rw [processEntry, if_neg (by rw [hnf]; simp), him]
  simp only []
  rw [if_neg (by simp [fileExists, hl])]
  rw [detectImageType_eq hl hread, if_neg (jpeg_not_png hjpeg), if_pos hjpeg]
  simp only [String.reduceEq, if_false]
  rw [hcvt]

/-- One loop iteration on a PNG-classified entry, given the result of
its backend conversion. -/
theorem processEntry_png_ok (w : World) (conv : String) (st st1 : RunSt) (e : Entry)
    (r : ImageRef) (fi : FileInfo)
    (him : e.image = some r) (hnf : refFalsy e.image = false)
    (hl : fsLookup st.files (resolveInputPath r) = some fi) (hread : fi.readable = true)
    (hpng : padTo 8 fi.sig = pngSignature)
    (hcvt : (if conv = "ffmpeg" then
        convertWithFfmpeg w (resolveInputPath r) (derivPath (resolveInputPath r) ".jpg")
          (derivPath (resolveInputPath r) ".webp") st
      else
        convertWithSipsAndCwebp w (resolveInputPath r) (derivPath (resolveInputPath r) ".jpg")
          (derivPath (resolveInputPath r) ".webp") st) = (st1, .ok ())) :
    processEntry w conv st e = (st1, .ok
      ((updateEntry e (toPublicPath (derivPath (resolveInputPath r) ".jpg"))
          (toPublicPath (derivPath (resolveInputPath r) ".webp"))).1,
       (updateEntry e (toPublicPath (derivPath (resolveInputPath r) ".jpg"))
          (toPublicPath (derivPath (resolveInputPath r) ".webp"))).2, true)) := by
  rw [processEntry, if_neg (by rw [hnf]; simp), him]
  simp only []
  rw [if_neg (by simp [fileExists, hl])]
  rw [detectImageType_eq hl hread, if_pos hpng]
  simp only [String.reduceEq, if_false, if_true]
  rw [hcvt]

/-- A run over a single-entry collection whose iteration converts and
updates: the final metadata holds the entry with both fields set, the
file is rewritten exactly when the update reported a change, and the
run succeeds with one processed entry. -/
theorem mainRun_singleton_upd (w : World) (sys : SysState) (conv : String) (e : Entry)
    (st1 : RunSt) (ni nw : ImageRef)
    (hpc : pickConverter w = .ok conv) (hm : sys.meta = some [e])
    (hpe : processEntry w conv ⟨sys.files, sys.clock, []⟩ e =
      (st1, .ok ((updateEntry e ni nw).1, (updateEntry e ni nw).2, true))) :
    mainRun w sys =
      ⟨⟨some [{ e with image := some ni, imageWebp := some nw }], st1.files, st1.clock⟩,
       st1.trace, if (updateEntry e ni nw).2 then 1 else 0, .ok (1, conv)⟩ := by
  have hfst := updateEntry_fst e ni nw
  unfold mainRun
  rw [hpc, hm]
  simp only []
  have hre : runEntries w conv ⟨sys.files, sys.clock, []⟩ [e] =
      (st1, .ok ([(updateEntry e ni nw).1], (updateEntry e ni nw).2 || false, 1)) := by
    simp only [runEntries, hpe]
    rfl
  rw [hre]
  cases hch : (updateEntry e ni nw).2 with
  | true =>
    rw [hfst]
    rfl
  | false =>
    have he : (updateEntry e ni nw).1 = e :=
      (updateEntry_shape e ni nw).2.1 hch
    have hEq : e = { e with image := some ni, imageWebp := some nw } :=
      (hfst.symm.trans he).symm
    rw [he, ← hEq]
    rfl

/-- Public paths always carry the leading slash, so they are never
falsy as image fields. -/
theorem refFalsy_toPublicPath (p : FsPath) : refFalsy (some (toPublicPath p)) = false := by
  rcases p with - | ⟨a, rest⟩
  · rfl
  · by_cases ha : a = "src"
    · subst ha
      rfl
    · rw [show toPublicPath (a :: rest) = ⟨true, ".." :: a :: rest⟩ from by
        rw [toPublicPath.eq_def]
        split
        · rename_i heq
          injection heq with h1 h2
          exact absurd h1 ha
        · rfl]
      rfl

/-- The public form of a path under src just drops the src component. -/
theorem toPublicPath_src (rest : List String) :
    toPublicPath ("src" :: rest) = ⟨true, rest⟩ := by
  simp [toPublicPath]

/-- A slash-rooted reference resolves under src. -/
theorem resolveInputPath_abs (comps : List String) :
    resolveInputPath ⟨true, comps⟩ = "src" :: comps := by
  simp [resolveInputPath]

/-! ### Claim theorems -/

/-- C8: for every filesystem path of a file located under the content
root (projectRoot/src, i.e. any path of the form src :: rest), mapping it
to its logical root-relative slash-prefixed form with toPublicPath and
resolving that logical form back with resolveInputPath yields the
original filesystem path. -/
theorem c8_path_roundtrip (rest : List String) :
    resolveInputPath (toPublicPath ("src" :: rest)) = "src" :: rest := by
  simp [toPublicPath, resolveInputPath]

/-- C3: shouldGenerate returns true when the derivative does not exist;
when it exists, it returns false exactly when the source's mtime is at
most the derivative's (equal timestamps included) and true when the
source's mtime is strictly greater; and its answer is a deterministic
function of the two file stats alone. -/
theorem c3_shouldGenerate_spec (fs : FS) (src out : FsPath) :
    (fsLookup fs out = none → shouldGenerate fs src out = .ok true)
    ∧ (∀ s o, fsLookup fs src = some s → fsLookup fs out = some o →
        s.mtime ≤ o.mtime → shouldGenerate fs src out = .ok false)
    ∧ (∀ s o, fsLookup fs src = some s → fsLookup fs out = some o →
        o.mtime < s.mtime → shouldGenerate fs src out = .ok true)
    ∧ (∀ fs2, fsLookup fs src = fsLookup fs2 src → fsLookup fs out = fsLookup fs2 out →
        shouldGenerate fs src out = shouldGenerate fs2 src out) := by
  refine ⟨fun h => ?_, fun s o hs ho hle => ?_, fun s o hs ho hlt => ?_, fun fs2 h1 h2 => ?_⟩
  · simp [shouldGenerate, fileExists, h]
  · simp [shouldGenerate, fileExists, hs, ho, Nat.not_lt.mpr hle]
  · simp [shouldGenerate, fileExists, hs, ho, hlt]
  · simp only [shouldGenerate, fileExists, h1, h2]

/-- Witness for C3 at concrete stats: a derivative at mtime 5 with a
source at mtime 3 is judged current. -/
theorem c3_shouldGenerate_spec_witness :
    shouldGenerate [(["a"], ⟨3, [], true⟩), (["b"], ⟨5, [], true⟩)] ["a"] ["b"] =
      .ok false :=
  (c3_shouldGenerate_spec [(["a"], ⟨3, [], true⟩), (["b"], ⟨5, [], true⟩)]
    ["a"] ["b"]).2.1 ⟨3, [], true⟩ ⟨5, [], true⟩ (by decide) (by decide) (by decide)

/-- C4: for a readable file, a leading prefix equal to the canonical
8-byte PNG signature classifies as png; a leading prefix starting with
the 3-byte JPEG start-of-image marker classifies as jpeg; any other
content (including empty or shorter-than-signature files) classifies as
other; and the classification is always exactly one of these three. -/
theorem c4_detectImageType_spec (fs : FS) (p : FsPath) (fi : FileInfo)
    (hl : fsLookup fs p = some fi) (hr : fi.readable = true) :
    (pngSignature <+: fi.sig → detectImageType fs p = .ok "png")
    ∧ (jpegMarker <+: fi.sig → detectImageType fs p = .ok "jpeg")
    ∧ (¬ pngSignature <+: fi.sig → ¬ jpegMarker <+: fi.sig →
        detectImageType fs p = .ok "other")
    ∧ (detectImageType fs p = .ok "png" ∨ detectImageType fs p = .ok "jpeg"
        ∨ detectImageType fs p = .ok "other") := by
  have hdet := detectImageType_eq hl hr
  refine ⟨fun hpng => ?_, fun hjpeg => ?_, fun hnp hnj => ?_, ?_⟩
  · rw [hdet, padTo_eq_of_prefix hpng (by decide)]
    simp [pngSignature]
  · have h3 : padTo 3 fi.sig = jpegMarker := padTo_eq_of_prefix hjpeg (by decide)
    have h8 : padTo 8 fi.sig ≠ pngSignature := by
      intro h8
      have hp : pngSignature <+: fi.sig := prefix_of_padTo_eq (by decide) (by decide) h8
      obtain ⟨t1, ht1⟩ := hjpeg
      obtain ⟨t2, ht2⟩ := hp
      rw [← ht2] at ht1
      simp [jpegMarker, pngSignature] at ht1
    rw [hdet, if_neg h8, h3]
    simp [jpegMarker]
  · have h8 : padTo 8 fi.sig ≠ pngSignature := fun h =>
      hnp (prefix_of_padTo_eq (by decide) (by decide) h)
    have h3 : padTo 3 fi.sig ≠ jpegMarker := fun h =>
      hnj (prefix_of_padTo_eq (by decide) (by decide) h)
    rw [hdet, if_neg h8, if_neg h3]
  · rw [hdet]
    by_cases h8 : padTo 8 fi.sig = pngSignature
    · left; simp [h8]
    · by_cases h3 : padTo 3 fi.sig = jpegMarker
      · right; left; simp [h8, h3]
      · right; right; simp [h8, h3]

/-- Witness for C4 on a concrete JPEG-marked file. -/
theorem c4_detectImageType_spec_witness :
    detectImageType [(["f"], ⟨0, [0xff, 0xd8, 0xff, 0xe0], true⟩)] ["f"] = .ok "jpeg" :=
  (c4_detectImageType_spec [(["f"], ⟨0, [0xff, 0xd8, 0xff, 0xe0], true⟩)] ["f"]
    ⟨0, [0xff, 0xd8, 0xff, 0xe0], true⟩ (by decide) (by decide)).2.1 ⟨[0xe0], by decide⟩

/-- C6: every fatal error (converter-selection failure, metadata load
failure, or any conversion subprocess exiting with non-zero status)
makes the run end in an error with zero metadata writes, so the metadata
file's stored content after the failed run equals its content before
the run: all in-memory entry updates from earlier in the pass are
discarded. -/
theorem c6_fatal_leaves_meta_unwritten (w : World) (sys : SysState) (err : String)
    (h : (mainRun w sys).result = .error err) :
    (mainRun w sys).sys.meta = sys.meta ∧ (mainRun w sys).writes = 0 := by
  revert h
  unfold mainRun
  split
  · intro _; exact ⟨rfl, rfl⟩
  · split
    · intro _; exact ⟨rfl, rfl⟩
    · split
      · intro _; exact ⟨rfl, rfl⟩
      · split
        · intro h; simp at h
        · intro h; simp at h

/-- Witness for C6: a run in which the single conversion subprocess
exits non-zero ends in a fatal error and leaves the metadata content
untouched with zero writes. -/
theorem c6_fatal_leaves_meta_unwritten_witness :
    (mainRun ⟨true, false, false, fun _ => some "boom"⟩
        ⟨some [⟨some ⟨false, ["dog.jpg"]⟩, none, []⟩],
         [(["src", "assets", "images", "dog.jpg"], ⟨0, [0xff, 0xd8, 0xff, 0xe0], true⟩)],
         1⟩).sys.meta = some [⟨some ⟨false, ["dog.jpg"]⟩, none, []⟩] ∧
    (mainRun ⟨true, false, false, fun _ => some "boom"⟩
        ⟨some [⟨some ⟨false, ["dog.jpg"]⟩, none, []⟩],
         [(["src", "assets", "images", "dog.jpg"], ⟨0, [0xff, 0xd8, 0xff, 0xe0], true⟩)],
         1⟩).writes = 0 :=
  c6_fatal_leaves_meta_unwritten ⟨true, false, false, fun _ => some "boom"⟩
    ⟨some [⟨some ⟨false, ["dog.jpg"]⟩, none, []⟩],
     [(["src", "assets", "images", "dog.jpg"], ⟨0, [0xff, 0xd8, 0xff, 0xe0], true⟩)],
     1⟩ "ffmpeg failed: boom" rfl

/-- C7 counterexample: with no converter on the host and a metadata file
that fails to load, the run's fatal error is the converter-selection
error, not the load error — so converter selection, not the metadata
load, is the orchestrator's first step, contradicting the claim. -/
theorem c7_counterexample :
    (mainRun ⟨false, false, false, fun _ => none⟩ ⟨none, [], 0⟩).result =
      .error "No supported image converter found. Install ffmpeg, or install both sips and cwebp."
    ∧ "No supported image converter found. Install ffmpeg, or install both sips and cwebp." ≠
      "Failed to load videos.json" := by
  exact ⟨rfl, by decide⟩

/-- C7 (amended): the orchestrator's first step is converter-backend
selection, whose failure is fatal regardless of the metadata file's
state; only after a successful selection does it load the metadata
collection as its second step, failing fatally on a load failure. -/
theorem c7_converter_then_load (w : World) (sys : SysState) :
    (∀ e, pickConverter w = .error e → (mainRun w sys).result = .error e)
    ∧ (∀ conv, pickConverter w = .ok conv → sys.meta = none →
        (mainRun w sys).result = .error "Failed to load videos.json") := by
  constructor
  · intro e he
    unfold mainRun
    rw [he]
  · intro conv hc hm
    unfold mainRun
    rw [hc, hm]

/-- Witness for C7 (amended), both arms at concrete inputs: a host with
no tools fails with the selection error even though the metadata is
missing too, and a host with ffmpeg fails with the load error on a
missing metadata file. -/
theorem c7_converter_then_load_witness :
    (mainRun ⟨false, false, false, fun _ => none⟩ ⟨none, [], 0⟩).result =
      .error "No supported image converter found. Install ffmpeg, or install both sips and cwebp."
    ∧ (mainRun ⟨true, false, false, fun _ => none⟩ ⟨none, [], 0⟩).result =
      .error "Failed to load videos.json" :=
  ⟨(c7_converter_then_load ⟨false, false, false, fun _ => none⟩ ⟨none, [], 0⟩).1
      "No supported image converter found. Install ffmpeg, or install both sips and cwebp." rfl,
   (c7_converter_then_load ⟨true, false, false, fun _ => none⟩ ⟨none, [], 0⟩).2
      "ffmpeg" rfl rfl⟩

/-- C5 counterexample: an entry whose source file exists but is
unreadable makes the whole run end in a fatal EACCES error instead of
being skipped: the classifier's failure is not caught per entry, so the
run does not continue to the next entry. -/
theorem c5_counterexample :
    (mainRun ⟨true, false, false, fun _ => none⟩
        ⟨some [⟨some ⟨false, ["x.jpg"]⟩, none, []⟩],
         [(["src", "assets", "images", "x.jpg"], ⟨0, [0xff, 0xd8, 0xff], false⟩)],
         1⟩).result = .error "EACCES: permission denied" := rfl

/-- C5 (amended): a missing source path never reaches the Format
Detector: the orchestrator's existence pre-check skips the entry,
leaving it untouched, and the loop continues with the remaining entries;
but a source that exists and is unreadable surfaces as an uncaught
classifier exception that aborts the entry loop (fatal for the run)
rather than a per-entry skip. -/
theorem c5_missing_skips_unreadable_aborts (w : World) (conv : String) (st : RunSt)
    (e : Entry) (es : List Entry) (r : ImageRef)
    (him : e.image = some r) (hnf : refFalsy e.image = false) :
    (fsLookup st.files (resolveInputPath r) = none →
       processEntry w conv st e = (st, .ok (e, false, false))
       ∧ (runEntries w conv st (e :: es)).1 = (runEntries w conv st es).1
       ∧ (runEntries w conv st (e :: es)).2 =
           ((runEntries w conv st es).2.map fun x => (e :: x.1, x.2.1, x.2.2)))
    ∧ (∀ fi, fsLookup st.files (resolveInputPath r) = some fi → fi.readable = false →
        processEntry w conv st e = (st, .error "EACCES: permission denied")
        ∧ (runEntries w conv st (e :: es)).2 = .error "EACCES: permission denied") := by
  constructor
  · intro hmiss
    have hpe : processEntry w conv st e = (st, .ok (e, false, false)) := by
      simp [processEntry, hnf, him, fileExists, hmiss]
    refine ⟨hpe, ?_, ?_⟩
    · show (runEntries w conv st (e :: es)).1 = (runEntries w conv st es).1
      simp only [runEntries, hpe]
      rcases hre : runEntries w conv st es with ⟨st2, res⟩
      cases res <;> simp
    · simp only [runEntries, hpe]
      rcases hre : runEntries w conv st es with ⟨st2, res⟩
      cases res <;> simp [Except.map]
  · intro fi hfi hur
    have hnf2 : refFalsy (some r) = false := him ▸ hnf
    have hpe : processEntry w conv st e = (st, .error "EACCES: permission denied") := by
      simp [processEntry, hnf2, him, fileExists, hfi, detectImageType, isPng,
        readSignature, hur]
    refine ⟨hpe, ?_⟩
    simp only [runEntries, hpe]

/-- Witness for C5 (amended): both arms evaluated on concrete states — a
missing dog.jpg is skipped leaving the entry untouched, and an
unreadable x.jpg aborts the loop with EACCES. -/
theorem c5_missing_skips_unreadable_aborts_witness :
    processEntry ⟨true, false, false, fun _ => none⟩ "ffmpeg" ⟨[], 0, []⟩
        ⟨some ⟨false, ["dog.jpg"]⟩, none, []⟩ =
      (⟨[], 0, []⟩, .ok (⟨some ⟨false, ["dog.jpg"]⟩, none, []⟩, false, false))
    ∧ processEntry ⟨true, false, false, fun _ => none⟩ "ffmpeg"
        ⟨[(["src", "assets", "images", "x.jpg"], ⟨0, [0xff, 0xd8, 0xff], false⟩)], 1, []⟩
        ⟨some ⟨false, ["x.jpg"]⟩, none, []⟩ =
      (⟨[(["src", "assets", "images", "x.jpg"], ⟨0, [0xff, 0xd8, 0xff], false⟩)], 1, []⟩,
       .error "EACCES: permission denied") :=
  ⟨((c5_missing_skips_unreadable_aborts ⟨true, false, false, fun _ => none⟩ "ffmpeg"
      ⟨[], 0, []⟩ ⟨some ⟨false, ["dog.jpg"]⟩, none, []⟩ [] ⟨false, ["dog.jpg"]⟩
      rfl rfl).1 rfl).1,
   ((c5_missing_skips_unreadable_aborts ⟨true, false, false, fun _ => none⟩ "ffmpeg"
      ⟨[(["src", "assets", "images", "x.jpg"], ⟨0, [0xff, 0xd8, 0xff], false⟩)], 1, []⟩
      ⟨some ⟨false, ["x.jpg"]⟩, none, []⟩ [] ⟨false, ["x.jpg"]⟩
      rfl rfl).2 ⟨0, [0xff, 0xd8, 0xff], false⟩ rfl rfl).1⟩

/-- C10: for a PNG-family source with both derivatives absent, the ffmpeg
backend produces the WebP derivative before the JPEG derivative while
the sips-cwebp backend produces the JPEG first; consequently a fresh
ffmpeg conversion leaves the JPEG derivative with a modification time at
or after the WebP derivative's. -/
theorem c10_conversion_order (w : World) (st : RunSt) (src jpg webp : FsPath)
    (hf1 : w.cmdFails (.ffmpeg src "70" webp) = none)
    (hf2 : w.cmdFails (.ffmpeg src "3" jpg) = none)
    (hs1 : w.cmdFails (.sips src jpg) = none)
    (hs2 : w.cmdFails (.cwebp src webp) = none)
    (hjpg : fsLookup st.files jpg = none)
    (hwebp : fsLookup st.files webp = none)
    (hne : jpg ≠ webp) :
    (convertWithFfmpeg w src jpg webp st).1.trace =
        st.trace ++ [.ffmpeg src "70" webp, .ffmpeg src "3" jpg]
    ∧ (convertWithSipsAndCwebp w src jpg webp st).1.trace =
        st.trace ++ [.sips src jpg, .cwebp src webp]
    ∧ (∃ fj fw, fsLookup (convertWithFfmpeg w src jpg webp st).1.files jpg = some fj
        ∧ fsLookup (convertWithFfmpeg w src jpg webp st).1.files webp = some fw
        ∧ fw.mtime ≤ fj.mtime) := by
  have hsgW : shouldGenerate st.files src webp = .ok true := by
    simp [shouldGenerate, fileExists, hwebp]
  have hsgJ : shouldGenerate st.files src jpg = .ok true := by
    simp [shouldGenerate, fileExists, hjpg]
  have hff : convertWithFfmpeg w src jpg webp st =
      (⟨fsInsert (fsInsert st.files webp ⟨st.clock, Cmd.outSig (.ffmpeg src "70" webp), true⟩)
          jpg ⟨st.clock + 1, Cmd.outSig (.ffmpeg src "3" jpg), true⟩,
        st.clock + 2, st.trace ++ [.ffmpeg src "70" webp] ++ [.ffmpeg src "3" jpg]⟩, .ok ()) := by
    have hsgJ1 : shouldGenerate
        (fsInsert st.files webp ⟨st.clock, Cmd.outSig (.ffmpeg src "70" webp), true⟩) src jpg =
        .ok true := by
      simp [shouldGenerate, fileExists, fsLookup, fsInsert, hjpg, Ne.symm hne]
    simp [convertWithFfmpeg, hsgW, runCommand, hf1, hf2, hsgJ1, Cmd.outPath]
  have hsc : convertWithSipsAndCwebp w src jpg webp st =
      (⟨fsInsert (fsInsert st.files jpg ⟨st.clock, Cmd.outSig (.sips src jpg), true⟩)
          webp ⟨st.clock + 1, Cmd.outSig (.cwebp src webp), true⟩,
        st.clock + 2, st.trace ++ [.sips src jpg] ++ [.cwebp src webp]⟩, .ok ()) := by
    have hsgW1 : shouldGenerate
        (fsInsert st.files jpg ⟨st.clock, Cmd.outSig (.sips src jpg), true⟩) src webp =
        .ok true := by
      simp [shouldGenerate, fileExists, fsLookup, fsInsert, hwebp, hne]
    simp [convertWithSipsAndCwebp, hsgJ, runCommand, hs1, hs2, hsgW1, Cmd.outPath]
  refine ⟨by rw [hff]; simp, by rw [hsc]; simp, ?_⟩
  refine ⟨⟨st.clock + 1, Cmd.outSig (.ffmpeg src "3" jpg), true⟩,
    ⟨st.clock, Cmd.outSig (.ffmpeg src "70" webp), true⟩, ?_, ?_, by simp⟩
  · rw [hff]; simp [fsLookup, fsInsert]
  · rw [hff]; simp [fsLookup, fsInsert, hne, Ne.symm hne]

/-- Witness for C10 on a concrete state: converting cat.png with both
derivatives absent. -/
theorem c10_conversion_order_witness :
    (convertWithFfmpeg ⟨true, false, false, fun _ => none⟩ ["src", "cat.png"]
        ["src", "cat.jpg"] ["src", "cat.webp"]
        ⟨[(["src", "cat.png"], ⟨0, pngSignature, true⟩)], 1, []⟩).1.trace =
      [.ffmpeg ["src", "cat.png"] "70" ["src", "cat.webp"],
       .ffmpeg ["src", "cat.png"] "3" ["src", "cat.jpg"]] :=
  (c10_conversion_order ⟨true, false, false, fun _ => none⟩
    ⟨[(["src", "cat.png"], ⟨0, pngSignature, true⟩)], 1, []⟩
    ["src", "cat.png"] ["src", "cat.jpg"] ["src", "cat.webp"]
    rfl rfl rfl rfl (by decide) (by decide) (by decide)).1

/-- C9: on a successful run the metadata collection is written at most
once, and only if some entry's pipeline-managed field changed; the
rewritten collection has the same length and order with every entry's
opaque fields byte-for-byte as loaded (updates confined to image and
imageWebp); and an entry whose source is missing, or classifies as
unrecognized, is returned entirely untouched by its loop iteration. -/
theorem c9_metadata_lifecycle (w : World) (sys : SysState) (videos : List Entry)
    (n : Nat) (conv : String) (hm : sys.meta = some videos)
    (hok : (mainRun w sys).result = .ok (n, conv)) :
    (mainRun w sys).writes ≤ 1
    ∧ ((mainRun w sys).writes = 0 → (mainRun w sys).sys.meta = some videos)
    ∧ ((mainRun w sys).writes = 1 → (mainRun w sys).sys.meta ≠ some videos)
    ∧ (∀ videos2, (mainRun w sys).sys.meta = some videos2 →
        videos2.length = videos.length
        ∧ ∀ i (h1 : i < videos.length) (h2 : i < videos2.length),
            (videos2.get ⟨i, h2⟩).rest = (videos.get ⟨i, h1⟩).rest
            ∧ (videos2.get ⟨i, h2⟩ = videos.get ⟨i, h1⟩
               ∨ ∃ ni nw, videos2.get ⟨i, h2⟩ =
                   { videos.get ⟨i, h1⟩ with image := some ni, imageWebp := some nw }))
    ∧ (∀ conv2 st (e : Entry) r, e.image = some r →
        (fsLookup st.files (resolveInputPath r) = none →
          processEntry w conv2 st e = (st, .ok (e, false, false)))
        ∧ (detectImageType st.files (resolveInputPath r) = .ok "other" →
          processEntry w conv2 st e = (st, .ok (e, false, false)))) := by
  have hskip : ∀ conv2 st (e : Entry) r, e.image = some r →
      (fsLookup st.files (resolveInputPath r) = none →
        processEntry w conv2 st e = (st, .ok (e, false, false)))
      ∧ (detectImageType st.files (resolveInputPath r) = .ok "other" →
        processEntry w conv2 st e = (st, .ok (e, false, false))) := by
    intro conv2 st e r him
    by_cases h1 : refFalsy e.image = true
    · exact ⟨fun _ => by rw [processEntry, if_pos h1], fun _ => by rw [processEntry, if_pos h1]⟩
    · constructor
      · intro hmiss
        simp [processEntry, h1, him, fileExists, hmiss]
      · intro hdet
        have hexi : fileExists st.files (resolveInputPath r) = true := by
          rcases hl : fsLookup st.files (resolveInputPath r) with - | fi
          · rw [detectImageType, isPng, readSignature, hl] at hdet
            simp at hdet
          · simp [fileExists, hl]
        rw [processEntry, if_neg h1, him]
        simp only []
        rw [if_neg (by simp [hexi]), hdet]
        simp
  revert hok
  unfold mainRun
  cases hpc : pickConverter w with
  | error e => intro hok; simp at hok
  | ok conv1 =>
    rw [hm]
    simp only []
    rcases hre : runEntries w conv1 ⟨sys.files, sys.clock, []⟩ videos with ⟨st2, res⟩
    cases res with
    | error err => intro hok; simp at hok
    | ok trip =>
      rcases trip with ⟨es2, dirty, n1⟩
      have hshape := runEntries_ok_shape w conv1 videos ⟨sys.files, sys.clock, []⟩
        st2 es2 dirty n1 hre
      cases dirty with
      | false =>
        intro _
        simp only [if_neg (by simp : ¬ (false = true))]
        refine ⟨?_, ?_, ?_, ?_, hskip⟩
        · simp
        · intro _
          trivial
        · simp
        · intro videos2 hv2
          have hsv : some videos = some videos2 := hm ▸ hv2
          obtain rfl : videos = videos2 := by injection hsv
          exact ⟨rfl, fun i h1 h2 => ⟨rfl, Or.inl rfl⟩⟩
      | true =>
        intro _
        simp only [if_pos rfl]
        refine ⟨?_, ?_, ?_, ?_, hskip⟩
        · simp
        · simp
        · intro _ hcon
          have hev : es2 = videos := by injection hcon
          exact hshape.2.2.1 rfl hev
        · intro videos2 hv2
          obtain rfl : es2 = videos2 := by injection hv2
          exact ⟨hshape.1, fun i h1 h2 => hshape.2.2.2 i h1 h2⟩

/-- Witness for C9 on a concrete successful run over a two-entry
collection (one converted JPEG entry, one entry with a missing file). -/
theorem c9_metadata_lifecycle_witness :
    (mainRun ⟨true, false, false, fun _ => none⟩
        ⟨some [⟨some ⟨false, ["dog.jpg"]⟩, none, [("title", "dog")]⟩,
               ⟨some ⟨false, ["gone.jpg"]⟩, none, []⟩],
         [(["src", "assets", "images", "dog.jpg"], ⟨0, [0xff, 0xd8, 0xff, 0xe0], true⟩)],
         1⟩).writes ≤ 1 :=
  (c9_metadata_lifecycle ⟨true, false, false, fun _ => none⟩
    ⟨some [⟨some ⟨false, ["dog.jpg"]⟩, none, [("title", "dog")]⟩,
           ⟨some ⟨false, ["gone.jpg"]⟩, none, []⟩],
     [(["src", "assets", "images", "dog.jpg"], ⟨0, [0xff, 0xd8, 0xff, 0xe0], true⟩)],
     1⟩ [⟨some ⟨false, ["dog.jpg"]⟩, none, [("title", "dog")]⟩,
         ⟨some ⟨false, ["gone.jpg"]⟩, none, []⟩] 1 "ffmpeg" rfl rfl).1

/-- C2 counterexample: for the entry whose image field is the bare
filename dog.jpg (a JPEG source that exists, with dog.webp absent), a
pipeline run does NOT leave the image field value unchanged: it rewrites
it to the resolved public form /assets/images/dog.jpg. -/
theorem c2_counterexample :
    (mainRun ⟨true, false, false, fun _ => none⟩
        ⟨some [⟨some ⟨false, ["dog.jpg"]⟩, none, []⟩],
         [(["src", "assets", "images", "dog.jpg"], ⟨0, [0xff, 0xd8, 0xff, 0xe0], true⟩)],
         1⟩).sys.meta =
      some [⟨some ⟨true, ["assets", "images", "dog.jpg"]⟩,
             some ⟨true, ["assets", "images", "dog.webp"]⟩, []⟩]
    ∧ (some (⟨true, ["assets", "images", "dog.jpg"]⟩ : ImageRef) ≠
        some (⟨false, ["dog.jpg"]⟩ : ImageRef)) :=
  ⟨rfl, by decide⟩

/-- C2 (amended): for a single-entry collection whose resolved source
exists, is readable, and is classified JPEG-family, with the WebP
derivative absent, a pipeline run sets the image field to the resolved
logical path of the same source file (so it is unchanged exactly when it
was already stored in resolved form), sets imageWebp to the resolved
logical WebP path, performs exactly one conversion, and creates only the
WebP derivative file. -/
theorem c2_jpeg_entry (w : World) (sys : SysState) (conv : String) (e : Entry)
    (r : ImageRef) (fi : FileInfo) (t : List String)
    (hpc : pickConverter w = .ok conv)
    (hcf : ∀ c, w.cmdFails c = none)
    (hm : sys.meta = some [e])
    (him : e.image = some r)
    (hnf : refFalsy e.image = false)
    (hrp : resolveInputPath r = "src" :: t)
    (hl : fsLookup sys.files ("src" :: t) = some fi)
    (hread : fi.readable = true)
    (hjpeg : padTo 3 fi.sig = jpegMarker)
    (hwebp : fsLookup sys.files (derivPath ("src" :: t) ".webp") = none) :
    (mainRun w sys).result = .ok (1, conv)
    ∧ (mainRun w sys).sys.meta = some
        [{ e with image := some (toPublicPath ("src" :: t)),
                  imageWebp := some (toPublicPath (derivPath ("src" :: t) ".webp")) }]
    ∧ (mainRun w sys).trace =
        [if conv = "ffmpeg" then
           Cmd.ffmpeg ("src" :: t) "70" (derivPath ("src" :: t) ".webp")
         else Cmd.cwebp ("src" :: t) (derivPath ("src" :: t) ".webp")]
    ∧ (∃ fiw, (mainRun w sys).sys.files =
        fsInsert sys.files (derivPath ("src" :: t) ".webp") fiw) := by
  have hdet : detectImageType sys.files ("src" :: t) = .ok "jpeg" := by
    rw [detectImageType_eq hl hread, if_neg (jpeg_not_png hjpeg), if_pos hjpeg]
  set wp := derivPath ("src" :: t) ".webp" with hwp
  set cmdC : Cmd := if conv = "ffmpeg" then Cmd.ffmpeg ("src" :: t) "70" wp
    else Cmd.cwebp ("src" :: t) wp with hcmd
  set ni := toPublicPath ("src" :: t) with hni
  set nw := toPublicPath wp with hnw
  have hcvt : convertJpegToWebp w conv ("src" :: t) wp ⟨sys.files, sys.clock, []⟩ =
      (⟨fsInsert sys.files wp ⟨sys.clock, cmdC.outSig, true⟩, sys.clock + 1, [cmdC]⟩,
       .ok ()) := by
    rw [convertJpegToWebp]
    have hsg : shouldGenerate sys.files ("src" :: t) wp = .ok true := by
      simp [shouldGenerate, fileExists, hwebp]
    rw [hsg]
    simp only [Bool.true_eq_false, if_false]
    by_cases hcv : conv = "ffmpeg"
    · rw [if_pos hcv, runCommand, hcf]
      simp [hcmd, hcv, Cmd.outPath]
    · rw [if_neg hcv, runCommand, hcf]
      simp [hcmd, hcv, Cmd.outPath]
  have hpe : processEntry w conv ⟨sys.files, sys.clock, []⟩ e =
      (⟨fsInsert sys.files wp ⟨sys.clock, cmdC.outSig, true⟩, sys.clock + 1, [cmdC]⟩,
       .ok ((updateEntry e ni nw).1, (updateEntry e ni nw).2, true)) := by
    rw [processEntry, if_neg (by rw [hnf]; simp), him]
    simp only []
    rw [hrp]
    rw [if_neg (by simp [fileExists, hl])]
    rw [hdet]
    simp only [String.reduceEq, if_false]
    rw [hcvt]
  have hre : runEntries w conv ⟨sys.files, sys.clock, []⟩ [e] =
      (⟨fsInsert sys.files wp ⟨sys.clock, cmdC.outSig, true⟩, sys.clock + 1, [cmdC]⟩,
       .ok ([(updateEntry e ni nw).1], (updateEntry e ni nw).2 || false, 1)) := by
    simp only [runEntries, hpe]
    rfl
  have hfst := updateEntry_fst e ni nw
  unfold mainRun
  rw [hpc, hm]
  simp only []
  rw [hre]
  cases hch : (updateEntry e ni nw).2 with
  | true =>
    refine ⟨rfl, ?_, rfl, ⟨⟨sys.clock, cmdC.outSig, true⟩, rfl⟩⟩
    rw [hfst]
    rfl
  | false =>
    have he : (updateEntry e ni nw).1 = e :=
      (updateEntry_shape e ni nw).2.1 hch
    have hEq : e = { e with image := some ni, imageWebp := some nw } :=
      (hfst.symm.trans he).symm
    refine ⟨rfl, ?_, rfl, ⟨⟨sys.clock, cmdC.outSig, true⟩, rfl⟩⟩
    rw [he, ← hEq]
    rfl

/-- Witness for C2 (amended) on the concrete dog.jpg scenario. -/
theorem c2_jpeg_entry_witness :
    (mainRun ⟨true, false, false, fun _ => none⟩
        ⟨some [⟨some ⟨false, ["dog.jpg"]⟩, none, []⟩],
         [(["src", "assets", "images", "dog.jpg"], ⟨0, [0xff, 0xd8, 0xff, 0xe0], true⟩)],
         1⟩).result = .ok (1, "ffmpeg") :=
  (c2_jpeg_entry ⟨true, false, false, fun _ => none⟩
    ⟨some [⟨some ⟨false, ["dog.jpg"]⟩, none, []⟩],
     [(["src", "assets", "images", "dog.jpg"], ⟨0, [0xff, 0xd8, 0xff, 0xe0], true⟩)],
     1⟩ "ffmpeg" ⟨some ⟨false, ["dog.jpg"]⟩, none, []⟩ ⟨false, ["dog.jpg"]⟩
    ⟨0, [0xff, 0xd8, 0xff, 0xe0], true⟩ ["assets", "images", "dog.jpg"]
    rfl (fun _ => rfl) rfl rfl rfl (by decide) (by decide) rfl (by decide)
    (by decide)).1

/-- C1 counterexample: for the single-entry collection over cat.png with
ffmpeg selected and no derivatives present, the second run (with no
filesystem changes between runs) performs one conversion-tool
invocation, not zero: it re-encodes cat.webp from the newer cat.jpg. -/
theorem c1_counterexample :
    (mainRun ⟨true, false, false, fun _ => none⟩
        (mainRun ⟨true, false, false, fun _ => none⟩
            ⟨some [⟨some ⟨false, ["cat.png"]⟩, none, []⟩],
             [(["src", "assets", "images", "cat.png"],
               ⟨0, [0x89, 0x50, 0x4e, 0x47, 0x0d, 0x0a, 0x1a, 0x0a], true⟩)],
             1⟩).sys).trace =
      [Cmd.ffmpeg ["src", "assets", "images", "cat.jpg"] "70"
        ["src", "assets", "images", "cat.webp"]]
    ∧ [Cmd.ffmpeg ["src", "assets", "images", "cat.jpg"] "70"
        ["src", "assets", "images", "cat.webp"]] ≠ ([] : List Cmd) :=
  ⟨rfl, by decide⟩

/-- C1 (amended): for a single-entry collection whose source resolves
under src to an existing readable PNG- or JPEG-classified file with a
proper filename, both derivative paths initially absent, and a clock
ahead of the source's mtime, running the pipeline twice in succession
with no filesystem changes between the runs leaves the metadata file
byte-identical after the first run's rewrite (the second run performs no
metadata write); the second run performs zero conversion-tool
invocations under the sips-cwebp backend and for JPEG-family sources
under ffmpeg, but for a PNG-family source under the ffmpeg backend it
performs exactly one invocation, re-encoding the WebP derivative from
the JPEG derivative that the first run left with a strictly newer
modification time. -/
theorem c1_second_run (w : World) (sys : SysState) (conv : String) (e : Entry)
    (r : ImageRef) (fi : FileInfo) (d : List String) (f : String)
    (hpc : pickConverter w = .ok conv)
    (hcf : ∀ c, w.cmdFails c = none)
    (hm : sys.meta = some [e])
    (him : e.image = some r)
    (hnf : refFalsy e.image = false)
    (hrp : resolveInputPath r = "src" :: (d ++ [f]))
    (hfne : f ≠ "")
    (hl : fsLookup sys.files ("src" :: (d ++ [f])) = some fi)
    (hread : fi.readable = true)
    (hmt : fi.mtime < sys.clock)
    (hjp : fsLookup sys.files (derivPath ("src" :: (d ++ [f])) ".jpg") = none)
    (hwp : fsLookup sys.files (derivPath ("src" :: (d ++ [f])) ".webp") = none)
    (hcls : padTo 8 fi.sig = pngSignature ∨ padTo 3 fi.sig = jpegMarker) :
    (mainRun w sys).result = .ok (1, conv)
    ∧ (mainRun w (mainRun w sys).sys).result = .ok (1, conv)
    ∧ (mainRun w (mainRun w sys).sys).writes = 0
    ∧ (mainRun w (mainRun w sys).sys).sys.meta = (mainRun w sys).sys.meta
    ∧ (conv = "sips-cwebp" → (mainRun w (mainRun w sys).sys).trace = [])
    ∧ (padTo 3 fi.sig = jpegMarker → (mainRun w (mainRun w sys).sys).trace = [])
    ∧ (conv = "ffmpeg" → padTo 8 fi.sig = pngSignature →
        (mainRun w (mainRun w sys).sys).trace =
          [Cmd.ffmpeg (derivPath ("src" :: (d ++ [f])) ".jpg") "70"
            (derivPath ("src" :: (d ++ [f])) ".webp")]) := by
  rw [← hrp] at hl hjp hwp ⊢
  have hdj : derivPath (resolveInputPath r) ".jpg" =
      ("src" :: d) ++ [parseName f ++ ".jpg"] := by
    rw [hrp]
    exact derivPath_concat ("src" :: d) f ".jpg"
  have hdw : derivPath (resolveInputPath r) ".webp" =
      ("src" :: d) ++ [parseName f ++ ".webp"] := by
    rw [hrp]
    exact derivPath_concat ("src" :: d) f ".webp"
  have hpnfne : parseName f ≠ "" := parseName_ne_empty hfne
  have hpg : parseName (parseName f ++ ".jpg") = parseName f :=
    parseName_append_ext (parseName f) ".jpg" hpnfne rfl (by decide)
  have hjwq : parseName f ++ ".jpg" ≠ parseName f ++ ".webp" := by
    intro hcon
    have hlen := congrArg String.length hcon
    rw [String.length_append, String.length_append] at hlen
    have h4 : (".jpg" : String).length = 4 := rfl
    have h5 : (".webp" : String).length = 5 := rfl
    rw [h4, h5] at hlen
    omega
  have hjpwp : derivPath (resolveInputPath r) ".jpg" ≠
      derivPath (resolveInputPath r) ".webp" := by
    rw [hdj, hdw]
    intro hcon
    have h2 := List.append_cancel_left hcon
    injection h2 with hx hrest
    exact hjwq hx
  have htp_j : toPublicPath (derivPath (resolveInputPath r) ".jpg") =
      ⟨true, d ++ [parseName f ++ ".jpg"]⟩ := by
    rw [hdj]
    exact toPublicPath_src (d ++ [parseName f ++ ".jpg"])
  have hrp_j : resolveInputPath (toPublicPath (derivPath (resolveInputPath r) ".jpg")) =
      derivPath (resolveInputPath r) ".jpg" := by
    rw [htp_j, resolveInputPath_abs, hdj]
    rfl
  have hderiv2 : derivPath (derivPath (resolveInputPath r) ".jpg") ".webp" =
      derivPath (resolveInputPath r) ".webp" := by
    rw [hdj, hdw, derivPath_concat ("src" :: d) (parseName f ++ ".jpg") ".webp", hpg]
  have htp_p : toPublicPath (resolveInputPath r) = ⟨true, d ++ [f]⟩ := by
    rw [hrp]
    exact toPublicPath_src (d ++ [f])
  have hrp_p : resolveInputPath (toPublicPath (resolveInputPath r)) = resolveInputPath r := by
    rw [htp_p, resolveInputPath_abs, hrp]
  have hpne_j : resolveInputPath r ≠ derivPath (resolveInputPath r) ".jpg" := by
    intro hcon
    rw [← hcon] at hjp
    exact Option.noConfusion (hl.symm.trans hjp)
  have hpne_w : resolveInputPath r ≠ derivPath (resolveInputPath r) ".webp" := by
    intro hcon
    rw [← hcon] at hwp
    exact Option.noConfusion (hl.symm.trans hwp)
  rcases hcls with hpng | hjpeg
  · have hne1 : e.image ≠ some (toPublicPath (derivPath (resolveInputPath r) ".jpg")) := by
      rw [him]
      intro hcon
      have hr2 : r = toPublicPath (derivPath (resolveInputPath r) ".jpg") := by
        injection hcon
      have hr3 := congrArg resolveInputPath hr2
      rw [hrp_j] at hr3
      exact hpne_j hr3
    rcases pickConverter_cases hpc with hcv | hcv
    · subst hcv
      have hcvt1 := convertWithFfmpeg_fresh w (resolveInputPath r)
        (derivPath (resolveInputPath r) ".jpg") (derivPath (resolveInputPath r) ".webp")
        ⟨sys.files, sys.clock, []⟩ hcf hjp hwp hjpwp
      simp only [List.nil_append] at hcvt1
      have hpe1 := processEntry_png_ok w "ffmpeg" ⟨sys.files, sys.clock, []⟩ _ e r fi
        him hnf hl hread hpng (by rw [if_pos rfl]; exact hcvt1)
      have hrun1 := mainRun_singleton_upd w sys "ffmpeg" e _
        (toPublicPath (derivPath (resolveInputPath r) ".jpg"))
        (toPublicPath (derivPath (resolveInputPath r) ".webp")) hpc hm hpe1
      have hsys1 : (mainRun w sys).sys = ⟨some [{ e with
          image := some (toPublicPath (derivPath (resolveInputPath r) ".jpg")),
          imageWebp := some (toPublicPath (derivPath (resolveInputPath r) ".webp")) }],
        fsInsert (fsInsert sys.files (derivPath (resolveInputPath r) ".webp")
            ⟨sys.clock, webpSigGen, true⟩) (derivPath (resolveInputPath r) ".jpg")
            ⟨sys.clock + 1, jpegSigGen, true⟩,
        sys.clock + 2⟩ := by
        rw [hrun1]
      have hlj2 : fsLookup (fsInsert (fsInsert sys.files
            (derivPath (resolveInputPath r) ".webp") ⟨sys.clock, webpSigGen, true⟩)
            (derivPath (resolveInputPath r) ".jpg") ⟨sys.clock + 1, jpegSigGen, true⟩)
          (derivPath (resolveInputPath r) ".jpg") = some ⟨sys.clock + 1, jpegSigGen, true⟩ :=
        fsLookup_insert_self _ _ _
      have hlw2 : fsLookup (fsInsert (fsInsert sys.files
            (derivPath (resolveInputPath r) ".webp") ⟨sys.clock, webpSigGen, true⟩)
            (derivPath (resolveInputPath r) ".jpg") ⟨sys.clock + 1, jpegSigGen, true⟩)
          (derivPath (resolveInputPath r) ".webp") = some ⟨sys.clock, webpSigGen, true⟩ := by
        rw [fsLookup_insert_ne _ _ _ _ hjpwp, fsLookup_insert_self]
      have hcvt2 : convertJpegToWebp w "ffmpeg"
          (resolveInputPath (toPublicPath (derivPath (resolveInputPath r) ".jpg")))
          (derivPath (resolveInputPath
            (toPublicPath (derivPath (resolveInputPath r) ".jpg"))) ".webp")
          ⟨fsInsert (fsInsert sys.files (derivPath (resolveInputPath r) ".webp")
              ⟨sys.clock, webpSigGen, true⟩) (derivPath (resolveInputPath r) ".jpg")
              ⟨sys.clock + 1, jpegSigGen, true⟩, sys.clock + 2, []⟩ =
          (⟨fsInsert (fsInsert (fsInsert sys.files
              (derivPath (resolveInputPath r) ".webp") ⟨sys.clock, webpSigGen, true⟩)
              (derivPath (resolveInputPath r) ".jpg") ⟨sys.clock + 1, jpegSigGen, true⟩)
              (derivPath (resolveInputPath r) ".webp") ⟨sys.clock + 2, webpSigGen, true⟩,
            sys.clock + 3,
            [Cmd.ffmpeg (derivPath (resolveInputPath r) ".jpg") "70"
              (derivPath (resolveInputPath r) ".webp")]⟩, .ok ()) := by
        rw [hrp_j, hderiv2]
        rw [convertJpegToWebp]
        have hsg2 : shouldGenerate (fsInsert (fsInsert sys.files
              (derivPath (resolveInputPath r) ".webp") ⟨sys.clock, webpSigGen, true⟩)
              (derivPath (resolveInputPath r) ".jpg") ⟨sys.clock + 1, jpegSigGen, true⟩)
            (derivPath (resolveInputPath r) ".jpg")
            (derivPath (resolveInputPath r) ".webp") = .ok true := by
          rw [shouldGenerate, if_neg (by simp [fileExists, hlw2]), hlj2, hlw2]
          simp
        rw [hsg2]
        simp [runCommand, hcf, Cmd.outPath, Cmd.outSig]
      have hpe2 := processEntry_jpeg_ok w "ffmpeg"
        ⟨fsInsert (fsInsert sys.files (derivPath (resolveInputPath r) ".webp")
            ⟨sys.clock, webpSigGen, true⟩) (derivPath (resolveInputPath r) ".jpg")
            ⟨sys.clock + 1, jpegSigGen, true⟩, sys.clock + 2, []⟩ _
        { e with
          image := some (toPublicPath (derivPath (resolveInputPath r) ".jpg")),
          imageWebp := some (toPublicPath (derivPath (resolveInputPath r) ".webp")) }
        (toPublicPath (derivPath (resolveInputPath r) ".jpg"))
        ⟨sys.clock + 1, jpegSigGen, true⟩
        rfl (refFalsy_toPublicPath _) (by rw [hrp_j]; exact hlj2) rfl
        (show padTo 3 jpegSigGen = jpegMarker from by decide) hcvt2
      rw [hrp_j, hderiv2] at hpe2
      have hrun2 := mainRun_singleton_upd w
        ⟨some [{ e with
          image := some (toPublicPath (derivPath (resolveInputPath r) ".jpg")),
          imageWebp := some (toPublicPath (derivPath (resolveInputPath r) ".webp")) }],
         fsInsert (fsInsert sys.files (derivPath (resolveInputPath r) ".webp")
             ⟨sys.clock, webpSigGen, true⟩) (derivPath (resolveInputPath r) ".jpg")
             ⟨sys.clock + 1, jpegSigGen, true⟩,
         sys.clock + 2⟩ "ffmpeg"
        { e with
          image := some (toPublicPath (derivPath (resolveInputPath r) ".jpg")),
          imageWebp := some (toPublicPath (derivPath (resolveInputPath r) ".webp")) } _
        (toPublicPath (derivPath (resolveInputPath r) ".jpg"))
        (toPublicPath (derivPath (resolveInputPath r) ".webp")) hpc rfl hpe2
      rw [updateEntry_self _ _ _ rfl rfl] at hrun2
      rw [hsys1, hrun2]
      refine ⟨?_, rfl, rfl, rfl, ?_, ?_, ?_⟩
      · rw [hrun1]
      · intro h5
        exact absurd h5 (by decide)
      · intro h6
        exact absurd hpng (jpeg_not_png h6)
      · intro _ _
        rfl
    · subst hcv
      have hcvt1 := convertWithSipsAndCwebp_fresh w (resolveInputPath r)
        (derivPath (resolveInputPath r) ".jpg") (derivPath (resolveInputPath r) ".webp")
        ⟨sys.files, sys.clock, []⟩ hcf hjp hwp hjpwp
      simp only [List.nil_append] at hcvt1
      have hpe1 := processEntry_png_ok w "sips-cwebp" ⟨sys.files, sys.clock, []⟩ _ e r fi
        him hnf hl hread hpng
        (by rw [if_neg (show ¬(("sips-cwebp" : String) = "ffmpeg") from by decide)]
            exact hcvt1)
      have hrun1 := mainRun_singleton_upd w sys "sips-cwebp" e _
        (toPublicPath (derivPath (resolveInputPath r) ".jpg"))
        (toPublicPath (derivPath (resolveInputPath r) ".webp")) hpc hm hpe1
      have hsys1 : (mainRun w sys).sys = ⟨some [{ e with
          image := some (toPublicPath (derivPath (resolveInputPath r) ".jpg")),
          imageWebp := some (toPublicPath (derivPath (resolveInputPath r) ".webp")) }],
        fsInsert (fsInsert sys.files (derivPath (resolveInputPath r) ".jpg")
            ⟨sys.clock, jpegSigGen, true⟩) (derivPath (resolveInputPath r) ".webp")
            ⟨sys.clock + 1, webpSigGen, true⟩,
        sys.clock + 2⟩ := by
        rw [hrun1]
      have hlj2 : fsLookup (fsInsert (fsInsert sys.files
            (derivPath (resolveInputPath r) ".jpg") ⟨sys.clock, jpegSigGen, true⟩)
            (derivPath (resolveInputPath r) ".webp") ⟨sys.clock + 1, webpSigGen, true⟩)
          (derivPath (resolveInputPath r) ".jpg") = some ⟨sys.clock, jpegSigGen, true⟩ := by
        rw [fsLookup_insert_ne _ _ _ _ (Ne.symm hjpwp), fsLookup_insert_self]
      have hlw2 : fsLookup (fsInsert (fsInsert sys.files
            (derivPath (resolveInputPath r) ".jpg") ⟨sys.clock, jpegSigGen, true⟩)
            (derivPath (resolveInputPath r) ".webp") ⟨sys.clock + 1, webpSigGen, true⟩)
          (derivPath (resolveInputPath r) ".webp") = some ⟨sys.clock + 1, webpSigGen, true⟩ :=
        fsLookup_insert_self _ _ _
      have hcvt2 : convertJpegToWebp w "sips-cwebp"
          (resolveInputPath (toPublicPath (derivPath (resolveInputPath r) ".jpg")))
          (derivPath (resolveInputPath
            (toPublicPath (derivPath (resolveInputPath r) ".jpg"))) ".webp")
          ⟨fsInsert (fsInsert sys.files (derivPath (resolveInputPath r) ".jpg")
              ⟨sys.clock, jpegSigGen, true⟩) (derivPath (resolveInputPath r) ".webp")
              ⟨sys.clock + 1, webpSigGen, true⟩, sys.clock + 2, []⟩ =
          (⟨fsInsert (fsInsert sys.files (derivPath (resolveInputPath r) ".jpg")
              ⟨sys.clock, jpegSigGen, true⟩) (derivPath (resolveInputPath r) ".webp")
              ⟨sys.clock + 1, webpSigGen, true⟩, sys.clock + 2, []⟩, .ok ()) := by
        rw [hrp_j, hderiv2]
        exact convertJpegToWebp_current w "sips-cwebp"
          (derivPath (resolveInputPath r) ".jpg") (derivPath (resolveInputPath r) ".webp")
          _ ⟨sys.clock, jpegSigGen, true⟩ ⟨sys.clock + 1, webpSigGen, true⟩
          hlj2 hlw2 (show ¬(sys.clock + 1 < sys.clock) from by omega)
      have hpe2 := processEntry_jpeg_ok w "sips-cwebp"
        ⟨fsInsert (fsInsert sys.files (derivPath (resolveInputPath r) ".jpg")
            ⟨sys.clock, jpegSigGen, true⟩) (derivPath (resolveInputPath r) ".webp")
            ⟨sys.clock + 1, webpSigGen, true⟩, sys.clock + 2, []⟩ _
        { e with
          image := some (toPublicPath (derivPath (resolveInputPath r) ".jpg")),
          imageWebp := some (toPublicPath (derivPath (resolveInputPath r) ".webp")) }
        (toPublicPath (derivPath (resolveInputPath r) ".jpg"))
        ⟨sys.clock, jpegSigGen, true⟩
        rfl (refFalsy_toPublicPath _) (by rw [hrp_j]; exact hlj2) rfl
        (show padTo 3 jpegSigGen = jpegMarker from by decide) hcvt2
      rw [hrp_j, hderiv2] at hpe2
      have hrun2 := mainRun_singleton_upd w
        ⟨some [{ e with
          image := some (toPublicPath (derivPath (resolveInputPath r) ".jpg")),
          imageWebp := some (toPublicPath (derivPath (resolveInputPath r) ".webp")) }],
         fsInsert (fsInsert sys.files (derivPath (resolveInputPath r) ".jpg")
             ⟨sys.clock, jpegSigGen, true⟩) (derivPath (resolveInputPath r) ".webp")
             ⟨sys.clock + 1, webpSigGen, true⟩,
         sys.clock + 2⟩ "sips-cwebp"
        { e with
          image := some (toPublicPath (derivPath (resolveInputPath r) ".jpg")),
          imageWebp := some (toPublicPath (derivPath (resolveInputPath r) ".webp")) } _
        (toPublicPath (derivPath (resolveInputPath r) ".jpg"))
        (toPublicPath (derivPath (resolveInputPath r) ".webp")) hpc rfl hpe2
      rw [updateEntry_self _ _ _ rfl rfl] at hrun2
      rw [hsys1, hrun2]
      refine ⟨?_, rfl, rfl, rfl, ?_, ?_, ?_⟩
      · rw [hrun1]
      · intro _
        rfl
      · intro h6
        exact absurd hpng (jpeg_not_png h6)
      · intro h7 _
        exact absurd h7 (by decide)
  · have hcvt1 := convertJpegToWebp_fresh w conv (resolveInputPath r)
      (derivPath (resolveInputPath r) ".webp") ⟨sys.files, sys.clock, []⟩ hcf hwp
    simp only [List.nil_append] at hcvt1
    have hpe1 := processEntry_jpeg_ok w conv ⟨sys.files, sys.clock, []⟩ _ e r fi
      him hnf hl hread hjpeg hcvt1
    have hrun1 := mainRun_singleton_upd w sys conv e _
      (toPublicPath (resolveInputPath r))
      (toPublicPath (derivPath (resolveInputPath r) ".webp")) hpc hm hpe1
    have hsys1 : (mainRun w sys).sys = ⟨some [{ e with
        image := some (toPublicPath (resolveInputPath r)),
        imageWebp := some (toPublicPath (derivPath (resolveInputPath r) ".webp")) }],
      fsInsert sys.files (derivPath (resolveInputPath r) ".webp")
        ⟨sys.clock, webpSigGen, true⟩,
      sys.clock + 1⟩ := by
      rw [hrun1]
    have hls2 : fsLookup (fsInsert sys.files (derivPath (resolveInputPath r) ".webp")
          ⟨sys.clock, webpSigGen, true⟩) (resolveInputPath r) = some fi := by
      rw [fsLookup_insert_ne _ _ _ _ (Ne.symm hpne_w)]
      exact hl
    have hlw2 : fsLookup (fsInsert sys.files (derivPath (resolveInputPath r) ".webp")
          ⟨sys.clock, webpSigGen, true⟩) (derivPath (resolveInputPath r) ".webp") =
        some ⟨sys.clock, webpSigGen, true⟩ :=
      fsLookup_insert_self _ _ _
    have hcvt2 : convertJpegToWebp w conv
        (resolveInputPath (toPublicPath (resolveInputPath r)))
        (derivPath (resolveInputPath (toPublicPath (resolveInputPath r))) ".webp")
        ⟨fsInsert sys.files (derivPath (resolveInputPath r) ".webp")
            ⟨sys.clock, webpSigGen, true⟩, sys.clock + 1, []⟩ =
        (⟨fsInsert sys.files (derivPath (resolveInputPath r) ".webp")
            ⟨sys.clock, webpSigGen, true⟩, sys.clock + 1, []⟩, .ok ()) := by
      rw [hrp_p]
      exact convertJpegToWebp_current w conv (resolveInputPath r)
        (derivPath (resolveInputPath r) ".webp") _ fi ⟨sys.clock, webpSigGen, true⟩
        hls2 hlw2 (show ¬(sys.clock < fi.mtime) from by omega)
    have hpe2 := processEntry_jpeg_ok w conv
      ⟨fsInsert sys.files (derivPath (resolveInputPath r) ".webp")
          ⟨sys.clock, webpSigGen, true⟩, sys.clock + 1, []⟩ _
      { e with
        image := some (toPublicPath (resolveInputPath r)),
        imageWebp := some (toPublicPath (derivPath (resolveInputPath r) ".webp")) }
      (toPublicPath (resolveInputPath r)) fi
      rfl (refFalsy_toPublicPath _) (by rw [hrp_p]; exact hls2) hread hjpeg hcvt2
    rw [hrp_p] at hpe2
    have hrun2 := mainRun_singleton_upd w
      ⟨some [{ e with
        image := some (toPublicPath (resolveInputPath r)),
        imageWebp := some (toPublicPath (derivPath (resolveInputPath r) ".webp")) }],
       fsInsert sys.files (derivPath (resolveInputPath r) ".webp")
         ⟨sys.clock, webpSigGen, true⟩,
       sys.clock + 1⟩ conv
      { e with
        image := some (toPublicPath (resolveInputPath r)),
        imageWebp := some (toPublicPath (derivPath (resolveInputPath r) ".webp")) } _
      (toPublicPath (resolveInputPath r))
      (toPublicPath (derivPath (resolveInputPath r) ".webp")) hpc rfl hpe2
    rw [updateEntry_self _ _ _ rfl rfl] at hrun2
    rw [hsys1, hrun2]
    refine ⟨?_, rfl, rfl, rfl, ?_, ?_, ?_⟩
    · rw [hrun1]
    · intro _
      rfl
    · intro _
      rfl
    · intro _ h7
      exact absurd h7 (jpeg_not_png hjpeg)

/-- Witness for C1 (amended) on the concrete cat.png scenario under
ffmpeg: the first run succeeds processing one entry. -/
theorem c1_second_run_witness :
    (mainRun ⟨true, false, false, fun _ => none⟩
        ⟨some [⟨some ⟨false, ["cat.png"]⟩, none, []⟩],
         [(["src", "assets", "images", "cat.png"],
           ⟨0, [0x89, 0x50, 0x4e, 0x47, 0x0d, 0x0a, 0x1a, 0x0a], true⟩)],
         1⟩).result = .ok (1, "ffmpeg") :=
  (c1_second_run ⟨true, false, false, fun _ => none⟩
    ⟨some [⟨some ⟨false, ["cat.png"]⟩, none, []⟩],
     [(["src", "assets", "images", "cat.png"],
       ⟨0, [0x89, 0x50, 0x4e, 0x47, 0x0d, 0x0a, 0x1a, 0x0a], true⟩)],
     1⟩ "ffmpeg" ⟨some ⟨false, ["cat.png"]⟩, none, []⟩ ⟨false, ["cat.png"]⟩
    ⟨0, [0x89, 0x50, 0x4e, 0x47, 0x0d, 0x0a, 0x1a, 0x0a], true⟩
    ["assets", "images"] "cat.png"
    rfl (fun _ => rfl) rfl rfl rfl rfl (by decide) rfl rfl (by decide) rfl rfl
    (Or.inl (by decide))).1

end ProcessImages
